import Mathlib

/-!
Shallow embedding of the chipurat8 CHIP-8 interpreter core (src/chip8.rs).

Modelling conventions:
* Machine bytes (`u8`) are `Nat`s; `% 256` is applied exactly where the Rust
  source wraps (`wrapping_add`, `overflowing_add`/`overflowing_sub` results,
  `u8` shifts and `u8` additions).  In the source the array element types
  (`[u8; 4096]`, `[u8; 16]`) bound the stored values; here the state carries
  `Nat → Nat` maps, and theorems add explicit range hypotheses where a value
  being a byte matters.
* Arrays indexed by a computed index become `Nat → Nat` maps; a Rust indexing
  panic (index out of bounds), a `Vec::pop` on an empty stack (`expect`), and
  an unknown-opcode `panic!` are modelled by returning `none` from the
  fallible operations `fetch_opcode`, `execute_opcode` and `run_cycle`.
* The call stack `Vec<usize>` is a `List Nat` whose head is the Rust vector's
  top (last pushed) element, so `push` is cons and `pop` takes the head.
* `ThreadRng` is an oracle stream `rng : List Nat`; each `CXNN` consumes one
  sample.  `Uniform::new(0, 255)` samples the half-open range `[0, 255)`,
  modelled by taking the head modulo 255.
* `println!("BEEP")` is a host-side effect with no core-state content and is
  dropped.
-/

/-- Display width in cells, `pub const WIDTH` in the source. -/
def WIDTH : Nat := 64

/-- Display height in cells, `pub const HEIGHT` in the source. -/
def HEIGHT : Nat := 32

/-- The 80-byte built-in glyph table `CHIP8_FONTSET`. -/
def CHIP8_FONTSET : List Nat :=
  [0xF0, 0x90, 0x90, 0x90, 0xF0,
   0x20, 0x60, 0x20, 0x20, 0x70,
   0xF0, 0x10, 0xF0, 0x80, 0xF0,
   0xF0, 0x10, 0xF0, 0x10, 0xF0,
   0x90, 0x90, 0xF0, 0x10, 0x10,
   0xF0, 0x80, 0xF0, 0x10, 0xF0,
   0xF0, 0x80, 0xF0, 0x90, 0xF0,
   0xF0, 0x10, 0x20, 0x40, 0x40,
   0xF0, 0x90, 0xF0, 0x90, 0xF0,
   0xF0, 0x90, 0xF0, 0x10, 0xF0,
   0xF0, 0x90, 0xF0, 0x90, 0x90,
   0xE0, 0x90, 0xE0, 0x90, 0xE0,
   0xF0, 0x80, 0x80, 0x80, 0xF0,
   0xE0, 0x90, 0x90, 0x90, 0xE0,
   0xF0, 0x80, 0xF0, 0x80, 0xF0,
   0xF0, 0x80, 0xF0, 0x80, 0x80]

/-- The interpreter core state, `pub struct Chip8`. -/
structure Chip8 where
  memory : Nat → Nat
  stack : List Nat
  v : Nat → Nat
  i : Nat
  pc : Nat
  delay_timer : Nat
  sound_timer : Nat
  rng : List Nat
  keys : Nat → Nat
  screen : Nat → Nat

/-- The program-counter update directive, `enum PCUpdateFlag`. -/
inductive PCUpdateFlag where
  | Next
  | Skip
  | Block
  | Set : Nat → PCUpdateFlag
deriving DecidableEq

/-- Pointwise update of a `Nat → Nat` map, modelling `arr[k] = x`. -/
def upd (f : Nat → Nat) (k x : Nat) : Nat → Nat :=
  fun a => if a = k then x else f a

/-- `fn get_addr(op) -> usize { (op & 0x0FFF) as usize }`. -/
def get_addr (op : Nat) : Nat := op &&& 0x0FFF

/-- `fn get_opx(op) -> usize { ((op & 0x0F00) >> 8) as usize }`. -/
def get_opx (op : Nat) : Nat := (op &&& 0x0F00) >>> 8

/-- `fn get_opy(op) -> usize { ((op & 0x00F0) >> 4) as usize }`. -/
def get_opy (op : Nat) : Nat := (op &&& 0x00F0) >>> 4

/-- Sequentially write a list of bytes at consecutive addresses, used to model
the slice copies performed by `load_rom` and `load_font`. -/
def writeList : (Nat → Nat) → Nat → List Nat → (Nat → Nat)
  | mem, _, [] => mem
  | mem, base, b :: rest => writeList (upd mem base b) (base + 1) rest

/-- `Chip8::new()`: all state zeroed, `pc = 0x200`, empty stack.  The
`ThreadRng` created by `thread_rng()` is an arbitrary sample stream, so it is
a parameter here. -/
def Chip8.new (rng : List Nat) : Chip8 :=
  { memory := fun _ => 0
    stack := []
    v := fun _ => 0
    i := 0
    pc := 0x200
    delay_timer := 0
    sound_timer := 0
    rng := rng
    keys := fun _ => 0
    screen := fun _ => 0 }

/-- `Chip8::load_rom`: `f.read(&mut self.memory[0x200..0xFFF])` copies at most
`0xFFF - 0x200 = 0xDFF` bytes of the image into memory starting at `0x200`
(the slice excludes address `0xFFF`); a longer image is silently truncated.
The file-open and read failures (`expect`) are host I/O panics outside the
core state and are not modelled; the image byte sequence is the parameter. -/
def Chip8.load_rom (s : Chip8) (image : List Nat) : Chip8 :=
  { s with memory := writeList s.memory 0x200 (image.take 0xDFF) }

/-- `Chip8::load_font`: copy `CHIP8_FONTSET` into memory at `0x050`. -/
def Chip8.load_font (s : Chip8) : Chip8 :=
  { s with memory := writeList s.memory 0x050 CHIP8_FONTSET }

/-- `Chip8::init`: `load_rom` then `load_font`. -/
def Chip8.init (s : Chip8) (image : List Nat) : Chip8 :=
  (s.load_rom image).load_font

/-- `Chip8::fetch_opcode`: big-endian 16-bit read at `pc`; `none` models the
indexing panic when `pc + 1` is outside the 4096-byte memory. -/
def Chip8.fetch_opcode (s : Chip8) : Option Nat :=
  if s.pc + 1 < 4096 then some ((s.memory s.pc) <<< 8 ||| s.memory (s.pc + 1))
  else none

/-- The `FX0A` key scan: `for i in 0..16 { if self.keys[i] == 1 { ... } }`,
returning the lowest-numbered pressed key. -/
def firstKey (s : Chip8) : Option Nat :=
  (List.range 16).find? (fun k => s.keys k == 1)

/-- One sprite pixel of `DXYN`: test sprite bit `x`, check the collision,
then XOR the cell.  `none` models the screen-indexing panic when the computed
location is outside the `64 * 32` buffer.  The accumulator carries the screen
and the pending flag-register value. -/
def drawPixel (vx rowBase px x : Nat) (acc : (Nat → Nat) × Nat) :
    Option ((Nat → Nat) × Nat) :=
  if px &&& (0x80 >>> x) ≠ 0 then
    if vx + x + rowBase < 2048 then
      some (upd acc.1 (vx + x + rowBase) (acc.1 (vx + x + rowBase) ^^^ 1),
            if acc.1 (vx + x + rowBase) = 1 then 1 else acc.2)
    else none
  else some acc

/-- The inner `for x in 0..8` loop of `DXYN`, over the list of x offsets. -/
def drawRowGo (vx rowBase px : Nat) :
    (Nat → Nat) × Nat → List Nat → Option ((Nat → Nat) × Nat)
  | acc, [] => some acc
  | acc, x :: xs =>
    match drawPixel vx rowBase px x acc with
    | none => none
    | some acc2 => drawRowGo vx rowBase px acc2 xs

/-- The outer `for y in 0..n` loop of `DXYN`: read the sprite row from
`memory[i + y]` (guarding the memory bound) and draw its eight pixels. -/
def drawRows (mem : Nat → Nat) (iReg vx vy : Nat) :
    (Nat → Nat) × Nat → List Nat → Option ((Nat → Nat) × Nat)
  | acc, [] => some acc
  | acc, y :: ys =>
    if iReg + y < 4096 then
      match drawRowGo vx ((vy + y) * WIDTH) (mem (iReg + y)) acc (List.range 8) with
      | none => none
      | some acc2 => drawRows mem iReg vx vy acc2 ys
    else none

/-- Ascending register store of `FX55`: `for i in 0..=x { memory[I+i] = v[i] }`,
defined by recursion on the highest register index `x`. -/
def storeRegs (mem v : Nat → Nat) (base : Nat) : Nat → (Nat → Nat)
  | 0 => upd mem base (v 0)
  | j + 1 => upd (storeRegs mem v base j) (base + (j + 1)) (v (j + 1))

/-- Ascending register load of `FX65`: `for i in 0..=x { v[i] = memory[I+i] }`. -/
def loadRegs (v mem : Nat → Nat) (base : Nat) : Nat → (Nat → Nat)
  | 0 => upd v 0 (mem base)
  | j + 1 => upd (loadRegs v mem base j) (j + 1) (mem (base + (j + 1)))

/-- `Chip8::execute_opcode`, the opcode dispatch.  Each arm mirrors one arm of
the Rust `match`; `none` stands for the panics (unknown opcode, empty-stack
return, out-of-bounds memory / screen / key indexing).  The order of the
register-file writes inside the `8XY*` arms follows the source exactly (the
flag register is written before the result register). -/
def Chip8.execute_opcode (s : Chip8) (op : Nat) : Option (Chip8 × PCUpdateFlag) :=
  if op &&& 0xF000 = 0x0000 then
    if op &&& 0x00FF = 0xE0 then
      some ({ s with screen := fun _ => 0 }, .Next)
    else if op &&& 0x00FF = 0xEE then
      match s.stack with
      | [] => none
      | a :: rest => some ({ s with pc := a, stack := rest }, .Next)
    else none
  else if op &&& 0xF000 = 0x1000 then
    some (s, .Set (get_addr op))
  else if op &&& 0xF000 = 0x2000 then
    some ({ s with stack := s.pc :: s.stack }, .Set (get_addr op))
  else if op &&& 0xF000 = 0x3000 then
    some (s, if s.v (get_opx op) = op &&& 0x00FF then .Skip else .Next)
  else if op &&& 0xF000 = 0x4000 then
    some (s, if s.v (get_opx op) ≠ op &&& 0x00FF then .Skip else .Next)
  else if op &&& 0xF000 = 0x5000 then
    some (s, if s.v (get_opx op) = s.v (get_opy op) then .Skip else .Next)
  else if op &&& 0xF000 = 0x6000 then
    some ({ s with v := upd s.v (get_opx op) (op &&& 0x00FF) }, .Next)
  else if op &&& 0xF000 = 0x7000 then
    some ({ s with v := upd s.v (get_opx op)
                        ((s.v (get_opx op) + (op &&& 0x00FF)) % 256) }, .Next)
  else if op &&& 0xF000 = 0x8000 then
    if op &&& 0x000F = 0x0 then
      some ({ s with v := upd s.v (get_opx op) (s.v (get_opy op)) }, .Next)
    else if op &&& 0x000F = 0x1 then
      some ({ s with v := upd s.v (get_opx op)
                          (s.v (get_opx op) ||| s.v (get_opy op)) }, .Next)
    else if op &&& 0x000F = 0x2 then
      some ({ s with v := upd s.v (get_opx op)
                          (s.v (get_opx op) &&& s.v (get_opy op)) }, .Next)
    else if op &&& 0x000F = 0x3 then
      some ({ s with v := upd s.v (get_opx op)
                          (s.v (get_opx op) ^^^ s.v (get_opy op)) }, .Next)
    else if op &&& 0x000F = 0x4 then
      let a := s.v (get_opx op)
      let b := s.v (get_opy op)
      let v1 := upd s.v 0xF (if 256 ≤ a + b then 1 else 0)
      some ({ s with v := upd v1 (get_opx op) ((a + b) % 256) }, .Next)
    else if op &&& 0x000F = 0x5 then
      let a := s.v (get_opx op)
      let b := s.v (get_opy op)
      let v1 := upd s.v 0xF (if a < b then 1 else 0)
      some ({ s with v := upd v1 (get_opx op) ((a + 256 - b) % 256) }, .Next)
    else if op &&& 0x000F = 0x6 then
      let v1 := upd s.v 0xF (s.v (get_opx op) &&& 0x1)
      some ({ s with v := upd v1 (get_opx op) (v1 (get_opx op) >>> 1) }, .Next)
    else if op &&& 0x000F = 0x7 then
      let a := s.v (get_opx op)
      let b := s.v (get_opy op)
      let v1 := upd s.v 0xF (if b < a then 1 else 0)
      some ({ s with v := upd v1 (get_opx op) ((b + 256 - a) % 256) }, .Next)
    else if op &&& 0x000F = 0xE then
      let v1 := upd s.v 0xF (s.v (get_opx op) &&& 0x1)
      some ({ s with v := upd v1 (get_opx op) ((v1 (get_opx op) <<< 1) % 256) }, .Next)
    else none
  else if op &&& 0xF000 = 0x9000 then
    some (s, if s.v (get_opx op) ≠ s.v (get_opy op) then .Skip else .Next)
  else if op &&& 0xF000 = 0xA000 then
    some ({ s with i := get_addr op }, .Next)
  else if op &&& 0xF000 = 0xB000 then
    some (s, .Set (get_addr op + s.v 0))
  else if op &&& 0xF000 = 0xC000 then
    some ({ s with v := upd s.v (get_opx op)
                        ((s.rng.headD 0 % 255) &&& (op &&& 0x00FF)),
                   rng := s.rng.tail }, .Next)
  else if op &&& 0xF000 = 0xD000 then
    match drawRows s.memory s.i (s.v (get_opx op)) (s.v (get_opy op))
            (s.screen, 0) (List.range (op &&& 0x000F)) with
    | none => none
    | some acc => some ({ s with screen := acc.1, v := upd s.v 0xF acc.2 }, .Next)
  else if op &&& 0xF000 = 0xE000 then
    if op &&& 0x00FF = 0x9E then
      if s.v (get_opx op) < 16 then
        some (s, if s.keys (s.v (get_opx op)) = 1 then .Skip else .Next)
      else none
    else if op &&& 0x00FF = 0xA1 then
      if s.v (get_opx op) < 16 then
        some (s, if s.keys (s.v (get_opx op)) ≠ 1 then .Skip else .Next)
      else none
    else none
  else if op &&& 0xF000 = 0xF000 then
    if op &&& 0x00FF = 0x07 then
      some ({ s with v := upd s.v (get_opx op) s.delay_timer }, .Next)
    else if op &&& 0x00FF = 0x0A then
      match firstKey s with
      | some k => some ({ s with v := upd s.v (get_opx op) k }, .Next)
      | none => some (s, .Block)
    else if op &&& 0x00FF = 0x15 then
      some ({ s with delay_timer := s.v (get_opx op) }, .Next)
    else if op &&& 0x00FF = 0x18 then
      some ({ s with sound_timer := s.v (get_opx op) }, .Next)
    else if op &&& 0x00FF = 0x1E then
      some ({ s with i := (s.i + s.v (get_opx op)) % (2 ^ 64) }, .Next)
    else if op &&& 0x00FF = 0x29 then
      some ({ s with i := (s.v (get_opx op) + 0x050) % 256 }, .Next)
    else if op &&& 0x00FF = 0x33 then
      if s.i + 2 < 4096 then
        let m1 := upd s.memory (s.i + 2) (s.v (get_opx op) % 10)
        let m2 := upd m1 (s.i + 1) (s.v (get_opx op) / 10 % 10)
        some ({ s with memory := upd m2 s.i (s.v (get_opx op) / 100 % 10) }, .Next)
      else none
    else if op &&& 0x00FF = 0x55 then
      if s.i + get_opx op < 4096 then
        some ({ s with memory := storeRegs s.memory s.v s.i (get_opx op) }, .Next)
      else none
    else if op &&& 0x00FF = 0x65 then
      if s.i + get_opx op < 4096 then
        some ({ s with v := loadRegs s.v s.memory s.i (get_opx op) }, .Next)
      else none
    else none
  else none

/-- `Chip8::run_cycle`: fetch, execute, apply the directive to `pc`, then
decrement each nonzero timer (`if t > 0 { t -= 1 }`, which on `Nat` is
truncated subtraction by one). -/
def Chip8.run_cycle (s : Chip8) : Option Chip8 :=
  match s.fetch_opcode with
  | none => none
  | some op =>
    match s.execute_opcode op with
    | none => none
    | some (s1, flag) =>
      let s2 :=
        match flag with
        | .Next => { s1 with pc := s1.pc + 2 }
        | .Skip => { s1 with pc := s1.pc + 4 }
        | .Set a => { s1 with pc := a }
        | .Block => s1
      some { s2 with delay_timer := s2.delay_timer - 1,
                     sound_timer := s2.sound_timer - 1 }

/-- A register file holding `a` in register 0 and `b` in register 1. -/
def regs2 (a b : Nat) : Nat → Nat :=
  fun r => if r = 0 then a else if r = 1 then b else 0

/-- A memory image holding `a` at `0x200` and `b` at `0x201` (an instruction
at the entry point), zero elsewhere. -/
def mem2 (a b : Nat) : Nat → Nat :=
  fun x => if x = 0x200 then a else if x = 0x201 then b else 0

/-- A memory image holding `val` at address `addr`, zero elsewhere. -/
def mem1 (addr val : Nat) : Nat → Nat :=
  fun x => if x = addr then val else 0

/-- State for the `8XY5`/`8XY7` borrow experiments: `V0 = 5`, `V1 = 10`. -/
def c1state : Chip8 := { Chip8.new [] with v := regs2 5 10 }

/-- State with a `6005` instruction at the entry point and the delay timer at
one. -/
def c2state : Chip8 := { Chip8.new [] with memory := mem2 0x60 0x05, delay_timer := 1 }

/-- State for the `FX29` experiment: register 3 holds the glyph value 2. -/
def c3state : Chip8 := { Chip8.new [] with v := fun r => if r = 3 then 2 else 0 }

/-- State blocked at an `F00A` (wait-for-key) instruction with no key pressed
and the delay timer at one. -/
def c5state : Chip8 := { Chip8.new [] with memory := mem2 0xF0 0x0A, delay_timer := 1 }

/-- State blocked at an `F00A` instruction with no key pressed and both
timers already at zero. -/
def c5zero : Chip8 := { Chip8.new [] with memory := mem2 0xF0 0x0A }

/-- State for the register save/restore experiment: two distinguished
register values and the index register at `0x300`. -/
def c6state : Chip8 := { Chip8.new [] with v := regs2 5 10, i := 0x300 }

/-- State about to execute `00EE` with return address `0x300` on the stack. -/
def c8state : Chip8 := { Chip8.new [] with memory := mem2 0x00 0xEE, stack := [0x300] }

/-- State about to execute `00EE` with an empty call stack. -/
def c8empty : Chip8 := { Chip8.new [] with memory := mem2 0x00 0xEE }

/-- State for a 1-row draw of the all-zero sprite at the origin. -/
def c9zero : Chip8 := { Chip8.new [] with i := 0x300 }

/-- State for a 1-row draw of the single-pixel sprite `0x80` at the origin on
a clear screen. -/
def c9one : Chip8 := { Chip8.new [] with i := 0x300, memory := mem1 0x300 0x80 }

/-- State for a draw at `VX = 57` (outside the fits-in-bounds region) whose
accessed cells nevertheless stay inside the display buffer. -/
def c10in : Chip8 :=
  { Chip8.new [] with i := 0x300, memory := mem1 0x300 0xFF, v := regs2 57 0 }

/-- State for a draw at `VX = 200`, `VY = 31` whose first accessed cell index
is `200 + 31 * 64 = 2184`, past the end of the display buffer. -/
def c10out : Chip8 :=
  { Chip8.new [] with i := 0x300, memory := mem1 0x300 0x80, v := regs2 200 31 }

/-! ### Bit-manipulation helpers for symbolic opcode decoding -/

theorem and_mask_mod (n k : Nat) : n &&& (2 ^ k - 1) = n % 2 ^ k := by
  apply Nat.eq_of_testBit_eq; intro i
  simp [Nat.testBit_land, Nat.testBit_mod_two_pow, Nat.testBit_two_pow_sub_one,
    Bool.and_comm]

theorem and_shiftLeft_mask (n m k : Nat) : n &&& (m <<< k) = ((n >>> k) &&& m) <<< k := by
  apply Nat.eq_of_testBit_eq; intro i
  simp only [Nat.testBit_land, Nat.testBit_shiftLeft, Nat.testBit_shiftRight]
  by_cases h : k ≤ i
  · simp [h, Nat.add_sub_cancel' h]
  · simp [h]

theorem and_byte_mask (n : Nat) : n &&& 0x00FF = n % 256 := by
  have h := and_mask_mod n 8
  norm_num at h
  exact h

theorem and_nibble_mask (n : Nat) : n &&& 0x000F = n % 16 := by
  have h := and_mask_mod n 4
  norm_num at h
  exact h

theorem and_addr_mask (n : Nat) : n &&& 0x0FFF = n % 4096 := by
  have h := and_mask_mod n 12
  norm_num at h
  exact h

theorem get_opx_eq (n : Nat) : get_opx n = n / 256 % 16 := by
  unfold get_opx
  have h1 : (0x0F00 : Nat) = 0xF <<< 8 := by decide
  rw [h1, and_shiftLeft_mask]
  have h2 := and_mask_mod (n >>> 8) 4
  norm_num at h2
  rw [h2, Nat.shiftLeft_eq, Nat.shiftRight_eq_div_pow]
  norm_num
  omega

theorem get_opy_eq (n : Nat) : get_opy n = n / 16 % 16 := by
  unfold get_opy
  have h1 : (0x00F0 : Nat) = 0xF <<< 4 := by decide
  rw [h1, and_shiftLeft_mask]
  have h2 := and_mask_mod (n >>> 4) 4
  norm_num at h2
  rw [h2, Nat.shiftLeft_eq, Nat.shiftRight_eq_div_pow]
  norm_num
  omega

theorem and_top_mask (n : Nat) : n &&& 0xF000 = n / 4096 % 16 * 4096 := by
  have h1 : (0xF000 : Nat) = 0xF <<< 12 := by decide
  rw [h1, and_shiftLeft_mask]
  have h2 := and_mask_mod (n >>> 12) 4
  norm_num at h2
  rw [h2, Nat.shiftLeft_eq, Nat.shiftRight_eq_div_pow]

/-- Decoding a symbolic opcode assembled from four nibbles. -/
theorem decode4 (a b c d : Nat) (ha : a < 16) (hb : b < 16) (hc : c < 16)
    (hd : d < 16) :
    (4096 * a + 256 * b + 16 * c + d) &&& 0xF000 = 4096 * a ∧
    get_opx (4096 * a + 256 * b + 16 * c + d) = b ∧
    get_opy (4096 * a + 256 * b + 16 * c + d) = c ∧
    (4096 * a + 256 * b + 16 * c + d) &&& 0x00FF = 16 * c + d ∧
    (4096 * a + 256 * b + 16 * c + d) &&& 0x000F = d := by
  refine ⟨?_, ?_, ?_, ?_, ?_⟩
  · rw [and_top_mask]; omega
  · rw [get_opx_eq]; omega
  · rw [get_opy_eq]; omega
  · rw [and_byte_mask]; omega
  · rw [and_nibble_mask]; omega

set_option maxRecDepth 4000 in
/-- A nonzero byte has at least one set bit among the eight sprite-bit
positions tested by the draw loop. -/
theorem exists_set_bit : ∀ b < 256, b ≠ 0 → ∃ x, x < 8 ∧ b &&& (0x80 >>> x) ≠ 0 := by
  decide

/-! ### Memory copy and register block lemmas -/

theorem writeList_get (l : List Nat) :
    ∀ (mem : Nat → Nat) (base a : Nat),
    writeList mem base l a =
      if base ≤ a ∧ a < base + l.length then l.getD (a - base) 0 else mem a := by
  induction l with
  | nil =>
    intro mem base a
    simp only [writeList, List.length_nil, Nat.add_zero]
    rw [if_neg (by omega)]
  | cons b rest ih =>
    intro mem base a
    rw [writeList, ih]
    by_cases h1 : base + 1 ≤ a ∧ a < base + 1 + rest.length
    · have h2 : base ≤ a ∧ a < base + (b :: rest).length := by
        simp only [List.length_cons]; omega
      rw [if_pos h1, if_pos h2]
      have h3 : a - base = (a - (base + 1)) + 1 := by omega
      rw [h3, List.getD_cons_succ]
    · by_cases h4 : a = base
      · have h5 : base ≤ a ∧ a < base + (b :: rest).length := by
          simp only [List.length_cons]; omega
        rw [if_neg h1, if_pos h5, upd, if_pos h4, h4]
        simp
      · have h6 : ¬(base ≤ a ∧ a < base + (b :: rest).length) := by
          simp only [List.length_cons]; omega
        rw [if_neg h1, if_neg h6, upd, if_neg h4]

theorem storeRegs_get_le (mem v : Nat → Nat) (base : Nat) :
    ∀ x k, k ≤ x → storeRegs mem v base x (base + k) = v k := by
  intro x
  induction x with
  | zero =>
    intro k hk
    interval_cases k
    simp [storeRegs, upd]
  | succ j ih =>
    intro k hk
    rw [storeRegs]
    by_cases h : k = j + 1
    · subst h; simp [upd]
    · rw [upd, if_neg (by omega)]
      exact ih k (by omega)

theorem storeRegs_get_out (mem v : Nat → Nat) (base : Nat) :
    ∀ x a, (∀ k ≤ x, a ≠ base + k) → storeRegs mem v base x a = mem a := by
  intro x
  induction x with
  | zero =>
    intro a ha
    have := ha 0 (Nat.le_refl 0)
    simp only [Nat.add_zero] at this
    simp [storeRegs, upd, this]
  | succ j ih =>
    intro a ha
    rw [storeRegs, upd, if_neg (ha (j + 1) (Nat.le_refl _))]
    exact ih a (fun k hk => ha k (by omega))

theorem loadRegs_get_le (v mem : Nat → Nat) (base : Nat) :
    ∀ x k, k ≤ x → loadRegs v mem base x k = mem (base + k) := by
  intro x
  induction x with
  | zero =>
    intro k hk
    interval_cases k
    simp [loadRegs, upd]
  | succ j ih =>
    intro k hk
    rw [loadRegs]
    by_cases h : k = j + 1
    · subst h; simp [upd]
    · rw [upd, if_neg h]
      exact ih k (by omega)

theorem loadRegs_get_gt (v mem : Nat → Nat) (base : Nat) :
    ∀ x k, x < k → loadRegs v mem base x k = v k := by
  intro x
  induction x with
  | zero =>
    intro k hk
    rw [loadRegs, upd, if_neg (by omega)]
  | succ j ih =>
    intro k hk
    rw [loadRegs, upd, if_neg (by omega)]
    exact ih k (by omega)


/-! ### Timer behaviour of the dispatcher and of one cycle -/

/-- Executing any single opcode other than `FX15` (set delay timer) and
`FX18` (set sound timer) leaves both timers untouched: every other arm of the
dispatch writes only registers, memory, screen, stack, index or program
counter. -/
theorem exec_preserves_timers (s : Chip8) (op : Nat) (s1 : Chip8) (f : PCUpdateFlag)
    (h : s.execute_opcode op = some (s1, f))
    (h15 : ¬(op &&& 0xF000 = 0xF000 ∧ op &&& 0x00FF = 0x15))
    (h18 : ¬(op &&& 0xF000 = 0xF000 ∧ op &&& 0x00FF = 0x18)) :
    s1.delay_timer = s.delay_timer ∧ s1.sound_timer = s.sound_timer := by
  have ht := and_top_mask op
  have hb := and_byte_mask op
  have hn := and_nibble_mask op
  obtain ⟨t, hdef, htlt⟩ : ∃ t, op / 4096 % 16 = t ∧ t < 16 :=
    ⟨_, rfl, Nat.mod_lt _ (by norm_num)⟩
  rw [hdef] at ht
  unfold Chip8.execute_opcode at h
  rw [ht, hb, hn] at h
  interval_cases t <;> norm_num at h
  · by_cases hE0 : op % 256 = 0xE0
    · rw [if_pos hE0] at h
      first
      | exact Option.noConfusion h
      | (injection h with hp; injection hp with hA hB; subst hA; exact ⟨rfl, rfl⟩)
      | (obtain ⟨h1, h2⟩ := h; subst h1; exact ⟨rfl, rfl⟩)
    rw [if_neg hE0] at h
    by_cases hEE : op % 256 = 0xEE
    · rw [if_pos hEE] at h
      split at h
      · exact Option.noConfusion h
      · first
        | (injection h with hp; injection hp with hA hB; subst hA; exact ⟨rfl, rfl⟩)
        | (obtain ⟨h1, h2⟩ := h; subst h1; exact ⟨rfl, rfl⟩)
    rw [if_neg hEE] at h
    exact Option.noConfusion h
  · first
    | exact Option.noConfusion h
    | (injection h with hp; injection hp with hA hB; subst hA; exact ⟨rfl, rfl⟩)
    | (obtain ⟨h1, h2⟩ := h; subst h1; exact ⟨rfl, rfl⟩)
  · first
    | exact Option.noConfusion h
    | (injection h with hp; injection hp with hA hB; subst hA; exact ⟨rfl, rfl⟩)
    | (obtain ⟨h1, h2⟩ := h; subst h1; exact ⟨rfl, rfl⟩)
  · first
    | exact Option.noConfusion h
    | (injection h with hp; injection hp with hA hB; subst hA; exact ⟨rfl, rfl⟩)
    | (obtain ⟨h1, h2⟩ := h; subst h1; exact ⟨rfl, rfl⟩)
  · first
    | exact Option.noConfusion h
    | (injection h with hp; injection hp with hA hB; subst hA; exact ⟨rfl, rfl⟩)
    | (obtain ⟨h1, h2⟩ := h; subst h1; exact ⟨rfl, rfl⟩)
  · first
    | exact Option.noConfusion h
    | (injection h with hp; injection hp with hA hB; subst hA; exact ⟨rfl, rfl⟩)
    | (obtain ⟨h1, h2⟩ := h; subst h1; exact ⟨rfl, rfl⟩)
  · first
    | exact Option.noConfusion h
    | (injection h with hp; injection hp with hA hB; subst hA; exact ⟨rfl, rfl⟩)
    | (obtain ⟨h1, h2⟩ := h; subst h1; exact ⟨rfl, rfl⟩)
  · first
    | exact Option.noConfusion h
    | (injection h with hp; injection hp with hA hB; subst hA; exact ⟨rfl, rfl⟩)
    | (obtain ⟨h1, h2⟩ := h; subst h1; exact ⟨rfl, rfl⟩)
  · obtain ⟨w, hw, hwlt⟩ : ∃ w, op % 16 = w ∧ w < 16 :=
      ⟨_, rfl, Nat.mod_lt _ (by norm_num)⟩
    rw [hw] at h
    interval_cases w <;> norm_num at h <;>
    first
    | exact Option.noConfusion h
    | (injection h with hp; injection hp with hA hB; subst hA; exact ⟨rfl, rfl⟩)
    | (obtain ⟨h1, h2⟩ := h; subst h1; exact ⟨rfl, rfl⟩)
  · first
    | exact Option.noConfusion h
    | (injection h with hp; injection hp with hA hB; subst hA; exact ⟨rfl, rfl⟩)
    | (obtain ⟨h1, h2⟩ := h; subst h1; exact ⟨rfl, rfl⟩)
  · first
    | exact Option.noConfusion h
    | (injection h with hp; injection hp with hA hB; subst hA; exact ⟨rfl, rfl⟩)
    | (obtain ⟨h1, h2⟩ := h; subst h1; exact ⟨rfl, rfl⟩)
  · first
    | exact Option.noConfusion h
    | (injection h with hp; injection hp with hA hB; subst hA; exact ⟨rfl, rfl⟩)
    | (obtain ⟨h1, h2⟩ := h; subst h1; exact ⟨rfl, rfl⟩)
  · first
    | exact Option.noConfusion h
    | (injection h with hp; injection hp with hA hB; subst hA; exact ⟨rfl, rfl⟩)
    | (obtain ⟨h1, h2⟩ := h; subst h1; exact ⟨rfl, rfl⟩)
  · rcases hdr : drawRows s.memory s.i (s.v (get_opx op)) (s.v (get_opy op))
        (s.screen, 0) (List.range (op % 16)) with _ | acc <;> rw [hdr] at h
    · exact Option.noConfusion h
    · first
      | (injection h with hp; injection hp with hA hB; subst hA; exact ⟨rfl, rfl⟩)
      | (obtain ⟨h1, h2⟩ := h; subst h1; exact ⟨rfl, rfl⟩)
  · by_cases h9E : op % 256 = 0x9E
    · rw [if_pos h9E] at h
      split_ifs at h
      all_goals first
        | exact Option.noConfusion h
        | (injection h with hp; injection hp with hA hB; subst hA; exact ⟨rfl, rfl⟩)
        | (obtain ⟨h1, h2⟩ := h; subst h1; exact ⟨rfl, rfl⟩)
    rw [if_neg h9E] at h
    by_cases hA1 : op % 256 = 0xA1
    · rw [if_pos hA1] at h
      split_ifs at h
      all_goals first
        | exact Option.noConfusion h
        | (injection h with hp; injection hp with hA hB; subst hA; exact ⟨rfl, rfl⟩)
        | (obtain ⟨h1, h2⟩ := h; subst h1; exact ⟨rfl, rfl⟩)
    rw [if_neg hA1] at h
    exact Option.noConfusion h
  · by_cases hc07 : op % 256 = 0x07
    · rw [if_pos hc07] at h
      first
      | (injection h with hp; injection hp with hA hB; subst hA; exact ⟨rfl, rfl⟩)
      | (obtain ⟨h1, h2⟩ := h; subst h1; exact ⟨rfl, rfl⟩)
    rw [if_neg hc07] at h
    by_cases hc0A : op % 256 = 0x0A
    · rw [if_pos hc0A] at h
      split at h
      all_goals
        first
        | (injection h with hp; injection hp with hA hB; subst hA; exact ⟨rfl, rfl⟩)
        | (obtain ⟨h1, h2⟩ := h; subst h1; exact ⟨rfl, rfl⟩)
    rw [if_neg hc0A] at h
    by_cases hc15 : op % 256 = 0x15
    · exact absurd ⟨by rw [ht], by rw [hb]; exact hc15⟩ h15
    rw [if_neg hc15] at h
    by_cases hc18 : op % 256 = 0x18
    · exact absurd ⟨by rw [ht], by rw [hb]; exact hc18⟩ h18
    rw [if_neg hc18] at h
    by_cases hc1E : op % 256 = 0x1E
    · rw [if_pos hc1E] at h
      first
      | (injection h with hp; injection hp with hA hB; subst hA; exact ⟨rfl, rfl⟩)
      | (obtain ⟨h1, h2⟩ := h; subst h1; exact ⟨rfl, rfl⟩)
    rw [if_neg hc1E] at h
    by_cases hc29 : op % 256 = 0x29
    · rw [if_pos hc29] at h
      first
      | (injection h with hp; injection hp with hA hB; subst hA; exact ⟨rfl, rfl⟩)
      | (obtain ⟨h1, h2⟩ := h; subst h1; exact ⟨rfl, rfl⟩)
    rw [if_neg hc29] at h
    by_cases hc33 : op % 256 = 0x33
    · rw [if_pos hc33] at h
      split_ifs at h
      all_goals first
        | exact Option.noConfusion h
        | (injection h with hp; injection hp with hA hB; subst hA; exact ⟨rfl, rfl⟩)
        | (obtain ⟨h1, h2⟩ := h; subst h1; exact ⟨rfl, rfl⟩)
    rw [if_neg hc33] at h
    by_cases hc55 : op % 256 = 0x55
    · rw [if_pos hc55] at h
      split_ifs at h
      all_goals first
        | exact Option.noConfusion h
        | (injection h with hp; injection hp with hA hB; subst hA; exact ⟨rfl, rfl⟩)
        | (obtain ⟨h1, h2⟩ := h; subst h1; exact ⟨rfl, rfl⟩)
    rw [if_neg hc55] at h
    by_cases hc65 : op % 256 = 0x65
    · rw [if_pos hc65] at h
      split_ifs at h
      all_goals first
        | exact Option.noConfusion h
        | (injection h with hp; injection hp with hA hB; subst hA; exact ⟨rfl, rfl⟩)
        | (obtain ⟨h1, h2⟩ := h; subst h1; exact ⟨rfl, rfl⟩)
    rw [if_neg hc65] at h
    exact Option.noConfusion h

/-- C2 (amended): contrary to the claim, `run_cycle` does decrement the
timers itself: after any successful step whose fetched instruction is neither
`FX15` nor `FX18`, the delay and the sound timer each equal their previous
value minus one (truncated at zero).  The dispatcher alone never touches them
(`exec_preserves_timers`); the decrement happens in the tail of `run_cycle`.
No separate `decrement_timers` / `consume_sound_request` operations exist in
the core file (the host's `main.rs` calls `dec_timers()` and `play_sound()`,
which `chip8.rs` does not define). -/
theorem run_cycle_decrements_timers (s t : Chip8) (op : Nat)
    (hf : s.fetch_opcode = some op)
    (h15 : ¬(op &&& 0xF000 = 0xF000 ∧ op &&& 0x00FF = 0x15))
    (h18 : ¬(op &&& 0xF000 = 0xF000 ∧ op &&& 0x00FF = 0x18))
    (hr : s.run_cycle = some t) :
    t.delay_timer = s.delay_timer - 1 ∧ t.sound_timer = s.sound_timer - 1 := by
  unfold Chip8.run_cycle at hr
  simp only [hf] at hr
  rcases he : s.execute_opcode op with _ | ⟨s1, flag⟩
  · simp only [he] at hr
    exact Option.noConfusion hr
  · simp only [he] at hr
    obtain ⟨hd, hs⟩ := exec_preserves_timers s op s1 flag he h15 h18
    cases flag <;>
      (simp only [Option.some.injEq] at hr; subst hr; exact ⟨by simp [hd], by simp [hs]⟩)

/-- C2 (counterexample): a step from a state whose instruction is `6005`
(not `FX15`/`FX18`) with delay timer 1 changes the delay timer to 0, so the
step operation does not leave the timers unchanged. -/
theorem run_cycle_changes_delay_timer :
    (Chip8.run_cycle c2state).map Chip8.delay_timer = some 0 ∧
    c2state.delay_timer = 1 ∧
    ((c2state.memory 0x200) <<< 8 ||| c2state.memory 0x201) &&& 0xF000 ≠ 0xF000 :=
  ⟨rfl, rfl, by decide⟩

/-- C2 (witness): the amended theorem applied to the concrete `6005` state
with delay timer 1. -/
theorem run_cycle_decrements_timers_witness :
    ∃ t, Chip8.run_cycle c2state = some t ∧
      t.delay_timer = c2state.delay_timer - 1 ∧
      t.sound_timer = c2state.sound_timer - 1 :=
  ⟨_, rfl, run_cycle_decrements_timers c2state _ 0x6005 rfl (by decide) (by decide) rfl⟩

/-- C5 (amended): at an `FX0A` instruction with no key pressed, a step leaves
memory, registers, index register, stack, display, keys and the program
counter unchanged, but — contrary to the claim — each step still decrements
the nonzero timers by one; once both timers are zero, every further step
leaves the state exactly unchanged. -/
theorem fx0a_block_preserves_state (s : Chip8) (x : Nat) (hx : x < 16)
    (hm0 : s.memory s.pc = 0xF0 + x) (hm1 : s.memory (s.pc + 1) = 0x0A)
    (hpc : s.pc + 1 < 4096)
    (hk : ∀ k, k < 16 → s.keys k ≠ 1) :
    s.run_cycle = some { s with delay_timer := s.delay_timer - 1,
                                sound_timer := s.sound_timer - 1 } ∧
    (s.delay_timer = 0 → s.sound_timer = 0 → s.run_cycle = some s) := by
  have hfk : firstKey s = none := by
    apply List.find?_eq_none.mpr
    intro k hkm
    simpa using hk k (List.mem_range.mp hkm)
  have hfetch : s.fetch_opcode = some ((0xF0 + x) <<< 8 ||| 0x0A) := by
    unfold Chip8.fetch_opcode
    rw [if_pos hpc, hm0, hm1]
  have hex : s.execute_opcode ((0xF0 + x) <<< 8 ||| 0x0A) = some (s, .Block) := by
    interval_cases x <;>
      simp +decide [Chip8.execute_opcode, hfk]
  have hmain : s.run_cycle = some { s with delay_timer := s.delay_timer - 1,
                                           sound_timer := s.sound_timer - 1 } := by
    unfold Chip8.run_cycle
    simp only [hfetch, hex]
  refine ⟨hmain, fun h0 h1 => ?_⟩
  rw [hmain]
  cases s
  simp_all

/-- C5 (counterexample): a state blocked at `F00A` with no key pressed and
delay timer 1 is not left unchanged by a step: the delay timer drops to 0. -/
theorem fx0a_block_changes_timer :
    (Chip8.run_cycle c5state).map Chip8.delay_timer = some 0 ∧
    c5state.delay_timer = 1 ∧
    (∀ k, k < 16 → c5state.keys k ≠ 1) ∧
    c5state.memory c5state.pc = 0xF0 ∧ c5state.memory (c5state.pc + 1) = 0x0A :=
  ⟨rfl, rfl, by decide, rfl, rfl⟩

/-- C5 (witness): with both timers already zero, a step at a blocked `F00A`
instruction is the identity on the whole state. -/
theorem fx0a_block_witness : Chip8.run_cycle c5zero = some c5zero :=
  (fx0a_block_preserves_state c5zero 0 (by decide) rfl rfl (by decide)
    (by decide)).2 rfl rfl

/-- C8 (amended): `00EE` with a non-empty stack pops the most recently pushed
address into the program counter, but the returned `Next` directive then
advances it, so after the step the program counter equals the popped address
plus 2 (not the popped address itself, as the claim states).  With an empty
stack the step is the fatal fault `none` (the source panics), as claimed. -/
theorem ret_pops_then_advances :
    (∀ (s : Chip8) (a : Nat) (rest : List Nat),
      s.stack = a :: rest → s.memory s.pc = 0x00 → s.memory (s.pc + 1) = 0xEE →
      s.pc + 1 < 4096 →
      s.run_cycle = some { s with pc := a + 2, stack := rest,
                                  delay_timer := s.delay_timer - 1,
                                  sound_timer := s.sound_timer - 1 }) ∧
    (∀ s : Chip8, s.stack = [] → s.memory s.pc = 0x00 →
      s.memory (s.pc + 1) = 0xEE → s.pc + 1 < 4096 → s.run_cycle = none) := by
  have hop : ((0x00 : Nat) <<< 8 ||| 0xEE) = 0xEE := by decide
  constructor
  · intro s a rest hstack hm0 hm1 hpc
    have hfetch : s.fetch_opcode = some 0xEE := by
      unfold Chip8.fetch_opcode
      rw [if_pos hpc, hm0, hm1, hop]
    have hex : s.execute_opcode 0xEE =
        some ({ s with pc := a, stack := rest }, .Next) := by
      unfold Chip8.execute_opcode
      rw [hstack]
      simp +decide
    unfold Chip8.run_cycle
    simp only [hfetch, hex]
  · intro s hstack hm0 hm1 hpc
    have hfetch : s.fetch_opcode = some 0xEE := by
      unfold Chip8.fetch_opcode
      rw [if_pos hpc, hm0, hm1, hop]
    have hex : s.execute_opcode 0xEE = none := by
      unfold Chip8.execute_opcode
      rw [hstack]
      simp +decide
    unfold Chip8.run_cycle
    simp only [hfetch, hex]

/-- C8 (counterexample): from a state whose stack holds return address
`0x300`, the step executing `00EE` ends with program counter `0x302`, not the
popped `0x300` the claim requires. -/
theorem ret_counterexample :
    (Chip8.run_cycle c8state).map Chip8.pc = some 0x302 ∧
    (0x302 : Nat) ≠ 0x300 ∧ c8state.stack = [0x300] :=
  ⟨rfl, by decide, rfl⟩

/-- C8 (witness): the amended theorem at the concrete return states: a
non-empty stack yields the popped address plus two, an empty stack faults. -/
theorem ret_witness :
    Chip8.run_cycle c8state =
      some { c8state with pc := 0x302, stack := ([] : List Nat),
                          delay_timer := 0, sound_timer := 0 } ∧
    Chip8.run_cycle c8empty = none :=
  ⟨ret_pops_then_advances.1 c8state 0x300 [] rfl rfl rfl (by decide),
   ret_pops_then_advances.2 c8empty rfl rfl rfl (by decide)⟩

/-- C6 (confirmed): for every state, register count `X < 16` and in-bounds
index (`I + X < 4096`), executing `FX55` stores registers `0..=X` at `I`, and
executing `FX65` on the result loads them back; the loaded register file
agrees with the original on every register (those `≤ X` are restored from
memory, those `> X` were never touched). -/
theorem store_load_roundtrip (s : Chip8) (x : Nat) (hx : x < 16)
    (hb : s.i + x < 4096) :
    s.execute_opcode (0xF055 + 256 * x) =
      some ({ s with memory := storeRegs s.memory s.v s.i x }, .Next) ∧
    ({ s with memory := storeRegs s.memory s.v s.i x } : Chip8).execute_opcode
        (0xF065 + 256 * x) =
      some ({ s with memory := storeRegs s.memory s.v s.i x,
                     v := loadRegs s.v (storeRegs s.memory s.v s.i x) s.i x },
            .Next) ∧
    ∀ r, loadRegs s.v (storeRegs s.memory s.v s.i x) s.i x r = s.v r := by
  obtain ⟨d1, d2, _, d4, _⟩ :=
    decode4 15 x 5 5 (by norm_num) hx (by norm_num) (by norm_num)
  obtain ⟨e1, e2, _, e4, _⟩ :=
    decode4 15 x 6 5 (by norm_num) hx (by norm_num) (by norm_num)
  have hop5 : (0xF055 + 256 * x : Nat) = 4096 * 15 + 256 * x + 16 * 5 + 5 := by ring
  have hop6 : (0xF065 + 256 * x : Nat) = 4096 * 15 + 256 * x + 16 * 6 + 5 := by ring
  refine ⟨?_, ?_, ?_⟩
  · rw [hop5]
    unfold Chip8.execute_opcode
    rw [d1, d2, d4]
    norm_num
    intro hcon
    exact absurd hb (by omega)
  · rw [hop6]
    unfold Chip8.execute_opcode
    rw [e1, e2, e4]
    norm_num
    intro hcon
    exact absurd hb (by omega)
  · intro r
    by_cases hr : r ≤ x
    · rw [loadRegs_get_le s.v _ s.i x r hr, storeRegs_get_le s.memory s.v s.i x r hr]
    · rw [loadRegs_get_gt s.v _ s.i x r (by omega)]

/-- C6 (witness): the round trip at a concrete state with `V0 = 5`, `V1 = 10`,
`I = 0x300` and `X = 1`. -/
theorem store_load_roundtrip_witness :
    loadRegs c6state.v (storeRegs c6state.memory c6state.v c6state.i 1)
        c6state.i 1 0 = c6state.v 0 ∧
    loadRegs c6state.v (storeRegs c6state.memory c6state.v c6state.i 1)
        c6state.i 1 1 = c6state.v 1 ∧
    Chip8.execute_opcode c6state (0xF055 + 256 * 1) =
      some ({ c6state with
                memory := storeRegs c6state.memory c6state.v c6state.i 1 },
            .Next) :=
  ⟨(store_load_roundtrip c6state 1 (by decide) (by decide)).2.2 0,
   (store_load_roundtrip c6state 1 (by decide) (by decide)).2.2 1,
   (store_load_roundtrip c6state 1 (by decide) (by decide)).1⟩

/-- C1 (code bug): with `V0 = 5` and `V1 = 10`, opcode `8015` yields
`V0 = 251` as the claim states, but the flag register ends at 1, not the 0
the spec's borrow convention (flag = 1 means no borrow) requires; likewise
`8017` computes `V1 - V0 = 5` with no borrow yet clears the flag.  The source
sets `v[0xF] = 1` exactly when `overflowing_sub` reports a borrow — the
inverse of the documented CHIP-8 convention. -/
theorem sub_borrow_flag_inverted :
    (Chip8.execute_opcode c1state 0x8015).map (fun p => (p.1.v 0, p.1.v 15)) =
      some (251, 1) ∧
    (Chip8.execute_opcode c1state 0x8017).map (fun p => (p.1.v 0, p.1.v 15)) =
      some (5, 0) ∧
    c1state.v 0 = 5 ∧ c1state.v 1 = 10 :=
  ⟨rfl, rfl, rfl, rfl⟩

/-- C3 (code bug): with register 3 holding glyph value 2, `F329` sets the
index register to `2 + 0x50 = 82`, not the font-table address
`0x50 + 2 * 5 = 90` of glyph 2 that the claim (and the source's own comment
and font layout) requires: the source omits the `* 5` scaling and the
low-nibble mask. -/
theorem font_address_wrong :
    (Chip8.execute_opcode c3state 0xF329).map (fun p => p.1.i) = some 82 ∧
    0x050 + (c3state.v 3 % 16) * 5 = 90 ∧ (82 : Nat) ≠ 90 :=
  ⟨rfl, rfl, by decide⟩

/-- C7 (confirmed): a fresh core (`new()`, here with the empty random-oracle
stream, which the scenario never consumes) loaded with `[60 05 70 03]` and
stepped twice ends with register 0 equal to 8 and program counter `0x204`. -/
theorem two_cycle_scenario :
    (((Chip8.new []).init [0x60, 0x05, 0x70, 0x03]).run_cycle.bind
        Chip8.run_cycle).map (fun t => (t.v 0, t.pc)) = some (8, 0x204) :=
  rfl

/-- C4 (amended): `init` copies only the first `min (length, 0xDFF)` bytes of
the image to `0x200` (the Rust slice `0x200..0xFFF` excludes `0xFFF`),
silently truncating longer images instead of failing with an
image-too-large error, and writes the 80-byte font at `0x050`; every other
address is untouched.  An unreadable source is an `expect` panic before any
cycle runs (host I/O outside this embedding). -/
theorem init_loads_truncated_image (s : Chip8) (image : List Nat) (a : Nat) :
    (s.init image).memory a =
      if 0x050 ≤ a ∧ a < 0x050 + 80 then CHIP8_FONTSET.getD (a - 0x050) 0
      else if 0x200 ≤ a ∧ a < 0x200 + min image.length 0xDFF then
        image.getD (a - 0x200) 0
      else s.memory a := by
  unfold Chip8.init Chip8.load_font Chip8.load_rom
  dsimp only
  rw [writeList_get, writeList_get]
  have hfl : CHIP8_FONTSET.length = 80 := rfl
  have htl : (image.take 0xDFF).length = min image.length 0xDFF := by
    rw [List.length_take, Nat.min_comm]
  rw [hfl, htl]
  by_cases h1 : 0x050 ≤ a ∧ a < 0x050 + 80
  · rw [if_pos h1, if_pos h1]
  · rw [if_neg h1, if_neg h1]
    by_cases h2 : 0x200 ≤ a ∧ a < 0x200 + min image.length 0xDFF
    · rw [if_pos h2, if_pos h2]
      have hk : a - 0x200 < 0xDFF := by
        rcases h2 with ⟨h2a, h2b⟩
        have := Nat.min_le_right image.length 0xDFF
        omega
      rw [List.getD_eq_getElem?_getD, List.getD_eq_getElem?_getD,
        List.getElem?_take, if_pos hk]
    · rw [if_neg h2, if_neg h2]

/-- C4 (counterexample): a 3600-byte image exceeds the `0x200..=0xFFF` space
(3584 bytes), yet `init` does not fail: it loads the first 3583 bytes (address
`0xFFE` receives byte value 7) and drops the rest (address `0xFFF` stays 0),
so neither the `ImageTooLarge` failure nor the whole-image copy the claim
asserts exists in the code. -/
theorem oversized_image_no_error :
    (List.replicate 3600 7).length = 3600 ∧ (3600 : Nat) > 0xFFF + 1 - 0x200 ∧
    ((Chip8.new []).init (List.replicate 3600 7)).memory 0xFFE = 7 ∧
    ((Chip8.new []).init (List.replicate 3600 7)).memory 0xFFF = 0 := by
  have hfl : CHIP8_FONTSET.length = 80 := rfl
  refine ⟨by rw [List.length_replicate], by norm_num, ?_, ?_⟩
  · unfold Chip8.init Chip8.load_font Chip8.load_rom
    dsimp only
    rw [writeList_get, writeList_get, List.take_replicate, hfl,
      List.length_replicate]
    rw [if_neg (by decide), if_pos (by decide)]
    rw [List.getD_eq_getElem?_getD, List.getElem?_replicate, if_pos (by decide)]
    rfl
  · unfold Chip8.init Chip8.load_font Chip8.load_rom
    dsimp only
    rw [writeList_get, writeList_get, List.take_replicate, hfl,
      List.length_replicate]
    rw [if_neg (by decide), if_neg (by decide)]
    rfl

/-! ### Sprite-draw lemmas -/

/-- A sprite row whose eight cell locations are all inside the display buffer
draws without faulting. -/
theorem drawRowGo_some (vx rowBase px : Nat) :
    ∀ (xs : List Nat) (acc : (Nat → Nat) × Nat),
      (∀ x ∈ xs, vx + x + rowBase < 2048) →
      ∃ r, drawRowGo vx rowBase px acc xs = some r := by
  intro xs
  induction xs with
  | nil => intro acc _; exact ⟨acc, rfl⟩
  | cons x xs ih =>
    intro acc h
    have hx := h x (List.mem_cons_self x xs)
    by_cases hbit : px &&& (0x80 >>> x) ≠ 0
    · have hp : drawPixel vx rowBase px x acc =
          some (upd acc.1 (vx + x + rowBase) (acc.1 (vx + x + rowBase) ^^^ 1),
                if acc.1 (vx + x + rowBase) = 1 then 1 else acc.2) := by
        unfold drawPixel
        rw [if_pos hbit, if_pos hx]
      simp only [drawRowGo, hp]
      exact ih _ (fun y hy => h y (List.mem_cons_of_mem x hy))
    · have hp : drawPixel vx rowBase px x acc = some acc := by
        unfold drawPixel
        rw [if_neg hbit]
      simp only [drawRowGo, hp]
      exact ih _ (fun y hy => h y (List.mem_cons_of_mem x hy))

/-- A sprite whose rows are inside memory and whose cell locations are all
inside the display buffer draws without faulting. -/
theorem drawRows_some (mem : Nat → Nat) (iReg vx vy : Nat) :
    ∀ (ys : List Nat) (acc : (Nat → Nat) × Nat),
      (∀ y ∈ ys, iReg + y < 4096) →
      (∀ y ∈ ys, vx + 7 + (vy + y) * WIDTH < 2048) →
      ∃ r, drawRows mem iReg vx vy acc ys = some r := by
  intro ys
  induction ys with
  | nil => intro acc _ _; exact ⟨acc, rfl⟩
  | cons y ys ih =>
    intro acc hm hs
    have hm0 := hm y (List.mem_cons_self y ys)
    have hs0 := hs y (List.mem_cons_self y ys)
    have hrow : ∀ x ∈ List.range 8, vx + x + (vy + y) * WIDTH < 2048 := by
      intro x hxm
      have := List.mem_range.mp hxm
      omega
    obtain ⟨r0, hr0⟩ :=
      drawRowGo_some vx ((vy + y) * WIDTH) (mem (iReg + y)) (List.range 8) acc hrow
    simp only [drawRows, if_pos hm0, hr0]
    exact ih r0 (fun z hz => hm z (List.mem_cons_of_mem y hz))
      (fun z hz => hs z (List.mem_cons_of_mem y hz))

/-- Characterization of one sprite row over distinct offsets with in-bounds
locations: the resulting screen XORs each cell covered by a set sprite bit,
and the flag output is 1 exactly when some set bit covered a cell that read 1
when visited (with distinct locations, its value in the starting screen). -/
theorem drawRowGo_spec (vx rowBase px : Nat) :
    ∀ (xs : List Nat) (acc : (Nat → Nat) × Nat),
      (∀ x ∈ xs, vx + x + rowBase < 2048) → xs.Nodup →
      ∃ S F, drawRowGo vx rowBase px acc xs = some (S, F) ∧
        (∀ a, S a =
          if ∃ x ∈ xs, px &&& (0x80 >>> x) ≠ 0 ∧ a = vx + x + rowBase
          then acc.1 a ^^^ 1 else acc.1 a) ∧
        F = (if ∃ x ∈ xs, px &&& (0x80 >>> x) ≠ 0 ∧ acc.1 (vx + x + rowBase) = 1
             then 1 else acc.2) := by
  intro xs
  induction xs with
  | nil =>
    intro acc _ _
    refine ⟨acc.1, acc.2, rfl, fun a => ?_, ?_⟩
    · simp
    · simp
  | cons x xs ih =>
    intro acc hb hnd
    have hbx := hb x (List.mem_cons_self x xs)
    have hnd1 : x ∉ xs := (List.nodup_cons.mp hnd).1
    have hnd2 : xs.Nodup := (List.nodup_cons.mp hnd).2
    by_cases hbit : px &&& (0x80 >>> x) ≠ 0
    · have hp : drawPixel vx rowBase px x acc =
          some (upd acc.1 (vx + x + rowBase) (acc.1 (vx + x + rowBase) ^^^ 1),
                if acc.1 (vx + x + rowBase) = 1 then 1 else acc.2) := by
        unfold drawPixel
        rw [if_pos hbit, if_pos hbx]
      obtain ⟨S, F, hSF, hS, hF⟩ :=
        ih (upd acc.1 (vx + x + rowBase) (acc.1 (vx + x + rowBase) ^^^ 1),
            if acc.1 (vx + x + rowBase) = 1 then 1 else acc.2)
          (fun y hy => hb y (List.mem_cons_of_mem x hy)) hnd2
      dsimp only at hS hF
      refine ⟨S, F, ?_, ?_, ?_⟩
      · simp only [drawRowGo, hp]
        exact hSF
      · intro a
        rw [hS a]
        by_cases hax : a = vx + x + rowBase
        · subst hax
          have hnotex : ¬∃ y ∈ xs, px &&& (0x80 >>> y) ≠ 0 ∧
              vx + x + rowBase = vx + y + rowBase := by
            rintro ⟨y, hyin, hybit, hyeq⟩
            have hxy : y = x := by omega
            exact hnd1 (hxy ▸ hyin)
          have hx0 : ∃ y ∈ x :: xs, px &&& (0x80 >>> y) ≠ 0 ∧
              vx + x + rowBase = vx + y + rowBase :=
            ⟨x, List.mem_cons_self x xs, hbit, rfl⟩
          rw [if_neg hnotex, if_pos hx0]
          simp [upd]
        · have hupd : upd acc.1 (vx + x + rowBase)
              (acc.1 (vx + x + rowBase) ^^^ 1) a = acc.1 a := by
            simp [upd, hax]
          rw [hupd]
          by_cases hex : ∃ y ∈ xs, px &&& (0x80 >>> y) ≠ 0 ∧ a = vx + y + rowBase
          · have hex2 : ∃ y ∈ x :: xs, px &&& (0x80 >>> y) ≠ 0 ∧
                a = vx + y + rowBase := by
              obtain ⟨y, hyin, hyb, hye⟩ := hex
              exact ⟨y, List.mem_cons_of_mem x hyin, hyb, hye⟩
            rw [if_pos hex, if_pos hex2]
          · have hex2 : ¬∃ y ∈ x :: xs, px &&& (0x80 >>> y) ≠ 0 ∧
                a = vx + y + rowBase := by
              rintro ⟨y, hyin, hyb, hye⟩
              rcases List.mem_cons.mp hyin with hyx | hyin2
              · exact hax (hyx ▸ hye)
              · exact hex ⟨y, hyin2, hyb, hye⟩
            rw [if_neg hex, if_neg hex2]
      · rw [hF]
        have hiff : (∃ y ∈ xs, px &&& (0x80 >>> y) ≠ 0 ∧
              (upd acc.1 (vx + x + rowBase) (acc.1 (vx + x + rowBase) ^^^ 1))
                (vx + y + rowBase) = 1) ↔
            (∃ y ∈ xs, px &&& (0x80 >>> y) ≠ 0 ∧ acc.1 (vx + y + rowBase) = 1) := by
          constructor
          · rintro ⟨y, hyin, hyb, hyv⟩
            refine ⟨y, hyin, hyb, ?_⟩
            have hne : vx + y + rowBase ≠ vx + x + rowBase := by
              intro hc
              have hxy : y = x := by omega
              exact hnd1 (hxy ▸ hyin)
            rwa [upd, if_neg hne] at hyv
          · rintro ⟨y, hyin, hyb, hyv⟩
            refine ⟨y, hyin, hyb, ?_⟩
            have hne : vx + y + rowBase ≠ vx + x + rowBase := by
              intro hc
              have hxy : y = x := by omega
              exact hnd1 (hxy ▸ hyin)
            rwa [upd, if_neg hne]
        rw [if_congr hiff rfl rfl]
        by_cases h1 : acc.1 (vx + x + rowBase) = 1
        · have hcons : ∃ y ∈ x :: xs, px &&& (0x80 >>> y) ≠ 0 ∧
              acc.1 (vx + y + rowBase) = 1 :=
            ⟨x, List.mem_cons_self x xs, hbit, h1⟩
          by_cases hex2 : ∃ y ∈ xs, px &&& (0x80 >>> y) ≠ 0 ∧
              acc.1 (vx + y + rowBase) = 1
          · rw [if_pos hex2, if_pos hcons]
          · rw [if_neg hex2, if_pos h1, if_pos hcons]
        · by_cases hex2 : ∃ y ∈ xs, px &&& (0x80 >>> y) ≠ 0 ∧
              acc.1 (vx + y + rowBase) = 1
          · have hcons : ∃ y ∈ x :: xs, px &&& (0x80 >>> y) ≠ 0 ∧
                acc.1 (vx + y + rowBase) = 1 := by
              obtain ⟨y, hyin, hyb, hyv⟩ := hex2
              exact ⟨y, List.mem_cons_of_mem x hyin, hyb, hyv⟩
            rw [if_pos hex2, if_pos hcons]
          · have hcons : ¬∃ y ∈ x :: xs, px &&& (0x80 >>> y) ≠ 0 ∧
                acc.1 (vx + y + rowBase) = 1 := by
              rintro ⟨y, hyin, hyb, hyv⟩
              rcases List.mem_cons.mp hyin with hyx | hyin2
              · exact h1 (hyx ▸ hyv)
              · exact hex2 ⟨y, hyin2, hyb, hyv⟩
            rw [if_neg hex2, if_neg h1, if_neg hcons]
    · have hp : drawPixel vx rowBase px x acc = some acc := by
        unfold drawPixel
        rw [if_neg hbit]
      obtain ⟨S, F, hSF, hS, hF⟩ :=
        ih acc (fun y hy => hb y (List.mem_cons_of_mem x hy)) hnd2
      refine ⟨S, F, ?_, ?_, ?_⟩
      · simp only [drawRowGo, hp]
        exact hSF
      · intro a
        rw [hS a]
        by_cases hex : ∃ y ∈ xs, px &&& (0x80 >>> y) ≠ 0 ∧ a = vx + y + rowBase
        · have hex2 : ∃ y ∈ x :: xs, px &&& (0x80 >>> y) ≠ 0 ∧
              a = vx + y + rowBase := by
            obtain ⟨y, hyin, hyb, hye⟩ := hex
            exact ⟨y, List.mem_cons_of_mem x hyin, hyb, hye⟩
          rw [if_pos hex, if_pos hex2]
        · have hex2 : ¬∃ y ∈ x :: xs, px &&& (0x80 >>> y) ≠ 0 ∧
              a = vx + y + rowBase := by
            rintro ⟨y, hyin, hyb, hye⟩
            rcases List.mem_cons.mp hyin with hyx | hyin2
            · exact hbit (hyx ▸ hyb)
            · exact hex ⟨y, hyin2, hyb, hye⟩
          rw [if_neg hex, if_neg hex2]
      · rw [hF]
        by_cases hex2 : ∃ y ∈ xs, px &&& (0x80 >>> y) ≠ 0 ∧
            acc.1 (vx + y + rowBase) = 1
        · have hcons : ∃ y ∈ x :: xs, px &&& (0x80 >>> y) ≠ 0 ∧
              acc.1 (vx + y + rowBase) = 1 := by
            obtain ⟨y, hyin, hyb, hyv⟩ := hex2
            exact ⟨y, List.mem_cons_of_mem x hyin, hyb, hyv⟩
          rw [if_pos hex2, if_pos hcons]
        · have hcons : ¬∃ y ∈ x :: xs, px &&& (0x80 >>> y) ≠ 0 ∧
              acc.1 (vx + y + rowBase) = 1 := by
            rintro ⟨y, hyin, hyb, hyv⟩
            rcases List.mem_cons.mp hyin with hyx | hyin2
            · exact hbit (hyx ▸ hyb)
            · exact hex2 ⟨y, hyin2, hyb, hyv⟩
          rw [if_neg hex2, if_neg hcons]

/-- C9 (amended): drawing the same 1-row sprite twice at the same in-bounds
location from the same memory restores the display exactly, and the second
draw sets the flag register to 1 — provided the sprite has at least one set
bit and the covered cells start clear (without those provisos the flag claim
fails, see the counterexample).  The coordinate registers are taken below 15
so that the flag write between the draws does not move the sprite. -/
theorem double_draw_identity (s : Chip8) (X Y : Nat) (hX : X < 15) (hY : Y < 15)
    (hvx : s.v X ≤ 56) (hvy : s.v Y ≤ 31) (hi : s.i < 4096)
    (hpx : s.memory s.i < 256) (hpz : s.memory s.i ≠ 0)
    (hclear : ∀ j, j < 8 → s.screen (s.v X + j + s.v Y * 64) = 0) :
    ∃ s1 s2,
      s.execute_opcode (0xD000 + 256 * X + 16 * Y + 1) = some (s1, .Next) ∧
      s1.execute_opcode (0xD000 + 256 * X + 16 * Y + 1) = some (s2, .Next) ∧
      (∀ a, s2.screen a = s.screen a) ∧ s2.v 15 = 1 := by
  obtain ⟨d1, d2, d3, _, d5⟩ :=
    decode4 13 X Y 1 (by norm_num) (by omega) (by omega) (by norm_num)
  have hop : (0xD000 + 256 * X + 16 * Y + 1 : Nat) =
      4096 * 13 + 256 * X + 16 * Y + 1 := by ring
  have hr1 : List.range 1 = [0] := rfl
  have hnd8 : (List.range 8).Nodup := List.nodup_range 8
  have hbound : ∀ x ∈ List.range 8,
      s.v X + x + (s.v Y + 0) * WIDTH < 2048 := by
    intro x hx
    have hx8 := List.mem_range.mp hx
    show s.v X + x + (s.v Y + 0) * 64 < 2048
    omega
  have hclear2 : ∀ j, j < 8 →
      s.screen (s.v X + j + (s.v Y + 0) * WIDTH) = 0 :=
    fun j hj => hclear j hj
  -- first draw
  obtain ⟨S1, F1, hSF1, hS1, hF1⟩ :=
    drawRowGo_spec (s.v X) ((s.v Y + 0) * WIDTH) (s.memory (s.i + 0))
      (List.range 8) (s.screen, 0) hbound hnd8
  dsimp only at hS1 hF1
  have hd1 : drawRows s.memory s.i (s.v X) (s.v Y) (s.screen, 0)
      (List.range 1) = some (S1, F1) := by
    rw [hr1]
    simp only [drawRows, if_pos (show s.i + 0 < 4096 by omega), hSF1]
  have hex1 : s.execute_opcode (0xD000 + 256 * X + 16 * Y + 1) =
      some ({ s with screen := S1, v := upd s.v 0xF F1 }, .Next) := by
    rw [hop]
    unfold Chip8.execute_opcode
    rw [d1, d2, d3, d5]
    norm_num
    rw [hd1]
  -- the coordinate registers are below 15, so the flag write kept them
  have hvX1 : upd s.v 0xF F1 X = s.v X := by
    rw [upd, if_neg (by omega)]
  have hvY1 : upd s.v 0xF F1 Y = s.v Y := by
    rw [upd, if_neg (by omega)]
  -- second draw
  obtain ⟨S2, F2, hSF2, hS2, hF2⟩ :=
    drawRowGo_spec (s.v X) ((s.v Y + 0) * WIDTH) (s.memory (s.i + 0))
      (List.range 8) (S1, 0) hbound hnd8
  dsimp only at hS2 hF2
  have hd2 : drawRows s.memory s.i (s.v X) (s.v Y) (S1, 0)
      (List.range 1) = some (S2, F2) := by
    rw [hr1]
    simp only [drawRows, if_pos (show s.i + 0 < 4096 by omega), hSF2]
  have hex2 : Chip8.execute_opcode { s with screen := S1, v := upd s.v 0xF F1 }
        (0xD000 + 256 * X + 16 * Y + 1) =
      some ({ s with screen := S2, v := upd (upd s.v 0xF F1) 0xF F2 }, .Next) := by
    rw [hop]
    unfold Chip8.execute_opcode
    rw [d1, d2, d3, d5]
    norm_num
    rw [hvX1, hvY1, hd2]
  refine ⟨_, _, hex1, hex2, ?_, ?_⟩
  · intro a
    show S2 a = s.screen a
    rw [hS2 a, hS1 a]
    by_cases hcov : ∃ x ∈ List.range 8,
        s.memory (s.i + 0) &&& (0x80 >>> x) ≠ 0 ∧
        a = s.v X + x + (s.v Y + 0) * WIDTH
    · rw [if_pos hcov, if_pos hcov]
      simp [Nat.xor_assoc]
    · rw [if_neg hcov, if_neg hcov]
  · show upd (upd s.v 0xF F1) 0xF F2 15 = 1
    rw [upd, if_pos rfl]
    rw [hF2]
    obtain ⟨x0, hx08, hx0b⟩ := exists_set_bit (s.memory s.i) hpx hpz
    have hx0b2 : s.memory (s.i + 0) &&& (0x80 >>> x0) ≠ 0 := hx0b
    have hcond : ∃ x ∈ List.range 8,
        s.memory (s.i + 0) &&& (0x80 >>> x) ≠ 0 ∧
        S1 (s.v X + x + (s.v Y + 0) * WIDTH) = 1 := by
      refine ⟨x0, List.mem_range.mpr hx08, hx0b2, ?_⟩
      rw [hS1]
      rw [if_pos ⟨x0, List.mem_range.mpr hx08, hx0b2, rfl⟩]
      rw [hclear2 x0 hx08]
      rfl
    rw [if_pos hcond]

/-- C9 (counterexample): drawing the all-zero 1-row sprite twice at the
in-bounds origin leaves the flag register at 0 after the second draw, not the
1 the claim demands for every 1-row sprite. -/
theorem double_draw_zero_sprite :
    ((Chip8.execute_opcode c9zero 0xD011).bind
        (fun p => Chip8.execute_opcode p.1 0xD011)).map (fun p => p.1.v 15) =
      some 0 ∧
    c9zero.memory c9zero.i = 0 ∧ c9zero.v 0 ≤ 56 ∧ c9zero.v 1 ≤ 31 :=
  ⟨rfl, rfl, by decide, by decide⟩

/-- C9 (witness): the amended theorem at the single-pixel sprite `0x80`
drawn twice at the origin of a clear screen. -/
theorem double_draw_identity_witness :
    ∃ s1 s2,
      Chip8.execute_opcode c9one (0xD000 + 256 * 0 + 16 * 1 + 1) =
        some (s1, .Next) ∧
      Chip8.execute_opcode s1 (0xD000 + 256 * 0 + 16 * 1 + 1) =
        some (s2, .Next) ∧
      (∀ a, s2.screen a = c9one.screen a) ∧ s2.v 15 = 1 :=
  double_draw_identity c9one 0 1 (by decide) (by decide) (by decide) (by decide)
    (by decide) (by decide) (by decide) (by decide)

/-- C10 (amended): when the sprite fits (`VX ≤ 56`, `VY + N ≤ 32`) and its
rows are inside memory, every screen access of `DXYN` is inside the `64 * 32`
buffer and the draw cannot fault; coordinates outside these bounds can push
the computed index `VX + x + (VY + y) * 64` past the buffer and fault (the
`c10out` state does), but — contrary to the claim — not every out-of-bounds
coordinate faults: see the counterexample. -/
theorem draw_bounds :
    (∀ (s : Chip8) (X Y n : Nat), X < 16 → Y < 16 → n < 16 →
      s.v X ≤ 56 → s.v Y + n ≤ 32 → s.i + n ≤ 4096 →
      ∃ t, s.execute_opcode (0xD000 + 256 * X + 16 * Y + n) = some t) ∧
    Chip8.execute_opcode c10out 0xD011 = none := by
  constructor
  · intro s X Y n hX hY hn hvx hvy hi
    obtain ⟨d1, d2, d3, _, d5⟩ := decode4 13 X Y n (by norm_num) hX hY hn
    have hop : (0xD000 + 256 * X + 16 * Y + n : Nat) =
        4096 * 13 + 256 * X + 16 * Y + n := by ring
    have hm : ∀ y ∈ List.range n, s.i + y < 4096 := by
      intro y hy
      have := List.mem_range.mp hy
      omega
    have hs : ∀ y ∈ List.range n, s.v X + 7 + (s.v Y + y) * WIDTH < 2048 := by
      intro y hy
      have := List.mem_range.mp hy
      show s.v X + 7 + (s.v Y + y) * 64 < 2048
      have hvyy : s.v Y + y ≤ 31 := by omega
      have : (s.v Y + y) * 64 ≤ 31 * 64 := Nat.mul_le_mul_right 64 hvyy
      omega
    obtain ⟨r, hr⟩ :=
      drawRows_some s.memory s.i (s.v X) (s.v Y) (List.range n) (s.screen, 0) hm hs
    rw [hop]
    unfold Chip8.execute_opcode
    rw [d1, d2, d3, d5]
    norm_num
    rw [hr]
    exact ⟨_, _, rfl⟩
  · rfl

/-- C10 (counterexample): at `VX = 57 > 56` (outside the fits-in-bounds
region) the draw of sprite `0xFF` still indexes inside the display buffer and
completes without fault, refuting the claim that out-of-bounds coordinates
always send the index past the end of the buffer. -/
theorem draw_oob_vx_no_fault :
    (Chip8.execute_opcode c10in 0xD011).isSome = true ∧
    c10in.v 0 = 57 ∧ (56 : Nat) < 57 :=
  ⟨rfl, rfl, by decide⟩

/-- C10 (witness): the in-bounds part of the amended theorem at a concrete
sprite, paired with the concrete faulting draw. -/
theorem draw_bounds_witness :
    (∃ t, Chip8.execute_opcode c9one (0xD000 + 256 * 0 + 16 * 1 + 1) = some t) ∧
    Chip8.execute_opcode c10out 0xD011 = none :=
  ⟨draw_bounds.1 c9one 0 1 1 (by decide) (by decide) (by decide) (by decide)
    (by decide) (by decide),
   draw_bounds.2⟩
